import Mathlib

/-!
Verification of the benchmark execution and timing harness in
`src/zcbenchmarks.cpp` (zcashcloud/komodo).

The harness is embedded shallowly:
* `timeval` / `timer_stop` mirror the POSIX `struct timeval` timer
  (lines 27–40 of the source); `gettimeofday` reads are passed in as
  explicit timestamps, and machine `double` arithmetic is modelled by
  exact rational arithmetic `ℚ` (the spec's elapsed-seconds formula is
  exact in `ℚ`).
* External collaborators (the boost future scheduler, the JoinSplit
  proof system, the Equihash solver, transaction serialization, script
  signing/verification) are not part of this repository; they appear as
  oracle parameters, while everything the benchmark file itself does is
  translated directly from the source.
-/

/-- POSIX `struct timeval`: a wall-clock timestamp with a seconds and a
microseconds component (both C integers, modelled as `Int`).
`gettimeofday` always yields `0 ≤ tv_usec < 1000000`. -/
structure timeval where
  tv_sec : Int
  tv_usec : Int
deriving DecidableEq, Repr

/-- A `timeval` returned by `gettimeofday` has its microseconds field
normalised into `[0, 1000000)`. -/
def timeval.valid (tv : timeval) : Prop :=
  0 ≤ tv.tv_usec ∧ tv.tv_usec < 1000000

instance (tv : timeval) : Decidable tv.valid := by
  unfold timeval.valid; infer_instance

/-- `tv_start ≼ tv_end`: the second timestamp is not earlier than the
first (lexicographic order on seconds then microseconds). -/
def timeval.le (s e : timeval) : Prop :=
  s.tv_sec < e.tv_sec ∨ (s.tv_sec = e.tv_sec ∧ s.tv_usec ≤ e.tv_usec)

instance (s e : timeval) : Decidable (timeval.le s e) := by
  unfold timeval.le; infer_instance

/-- `timer_stop` (source lines 32–40).  The C++ function receives the
start state by reference, reads the current time `tv_end`, and computes
`double(tv_end.tv_sec - tv_start.tv_sec) +
 (tv_end.tv_usec - tv_start.tv_usec) / double(1000000)`.
The reference is read but never written, which the state-passing
embedding expresses by returning the start state unchanged as the
second component.  The `tv_end` read from `gettimeofday` is an explicit
argument. -/
def timer_stop (tv_start tv_end : timeval) : ℚ × timeval :=
  (((tv_end.tv_sec - tv_start.tv_sec : Int) : ℚ) +
     ((tv_end.tv_usec - tv_start.tv_usec : Int) : ℚ) / 1000000,
   tv_start)

/-- The elapsed-seconds formula exactly as the spec states it
(§4.1: `elapsed = (end.sec - start.sec) + (end.usec - start.usec) / 1_000_000`),
written independently of `timer_stop` for the refinement comparison. -/
def elapsedSecondsSpec (tv_start tv_end : timeval) : ℚ :=
  ((tv_end.tv_sec : ℚ) - (tv_start.tv_sec : ℚ)) +
    ((tv_end.tv_usec : ℚ) - (tv_start.tv_usec : ℚ)) / 1000000

/-- C3: for every pair of wall-clock timestamps, `timer_stop` taken at
`tv_end` returns exactly `(end.sec - start.sec) + (end.usec - start.usec) / 1_000_000`
seconds, and does not mutate the start state. -/
theorem timer_stop_exact_formula (tv_start tv_end : timeval) :
    (timer_stop tv_start tv_end).1 = elapsedSecondsSpec tv_start tv_end ∧
    (timer_stop tv_start tv_end).2 = tv_start := by
  constructor
  · unfold timer_stop elapsedSecondsSpec
    push_cast
    ring
  · rfl

/-- C4: under a monotonically non-decreasing clock (the stop timestamp
is not earlier than the start timestamp, both with normalised
microsecond fields), the elapsed value computed by `timer_stop` is
nonnegative. -/
theorem timer_stop_nonneg (tv_start tv_end : timeval)
    (hs : tv_start.valid) (he : tv_end.valid)
    (hle : timeval.le tv_start tv_end) :
    0 ≤ (timer_stop tv_start tv_end).1 := by
  obtain ⟨hs0, hs1⟩ := hs
  obtain ⟨he0, he1⟩ := he
  unfold timer_stop
  rcases hle with hlt | ⟨hsec, husec⟩
  · have h1 : (1 : ℚ) ≤ ((tv_end.tv_sec - tv_start.tv_sec : Int) : ℚ) := by
      have : (1 : Int) ≤ tv_end.tv_sec - tv_start.tv_sec := by omega
      exact_mod_cast this
    have h2 : (-1 : ℚ) ≤ ((tv_end.tv_usec - tv_start.tv_usec : Int) : ℚ) / 1000000 := by
      rw [le_div_iff₀ (by norm_num : (0:ℚ) < 1000000)]
      have : (-1000000 : Int) ≤ tv_end.tv_usec - tv_start.tv_usec := by omega
      calc ((-1 : ℚ)) * 1000000 = ((-1000000 : Int) : ℚ) := by norm_num
      _ ≤ ((tv_end.tv_usec - tv_start.tv_usec : Int) : ℚ) := by exact_mod_cast this
    simp only []
    linarith
  · have h1 : ((tv_end.tv_sec - tv_start.tv_sec : Int) : ℚ) = 0 := by
      rw [hsec]; simp
    have h2 : (0 : ℚ) ≤ ((tv_end.tv_usec - tv_start.tv_usec : Int) : ℚ) / 1000000 := by
      apply div_nonneg _ (by norm_num : (0:ℚ) ≤ 1000000)
      have : (0 : Int) ≤ tv_end.tv_usec - tv_start.tv_usec := by omega
      exact_mod_cast this
    simp only []
    linarith

/-- Witness for C4 at a concrete start/stop pair. -/
theorem timer_stop_nonneg_witness :
    (timeval.mk 10 999999).valid ∧ (timeval.mk 11 3).valid ∧
      timeval.le (timeval.mk 10 999999) (timeval.mk 11 3) ∧
      0 ≤ (timer_stop (timeval.mk 10 999999) (timeval.mk 11 3)).1 :=
  ⟨by decide, by decide, by decide,
   timer_stop_nonneg (timeval.mk 10 999999) (timeval.mk 11 3)
     (by decide) (by decide) (by decide)⟩

/-!
### Concurrent runner (`benchmark_solve_equihash_threaded`, lines 130–144)

The C++ runner launches `nThreads` boost futures, each running
`benchmark_solve_equihash`, then repeatedly calls
`boost::wait_for_any(tasks.begin(), tasks.end())`, pushes the ready
future's value, erases it, and loops until no task is pending.

The boost scheduler is external.  A task is modelled by the wall-clock
time at which its future becomes ready (`finish`) and the `double` it
yields (`value`); `wait_for_any` blocks until some pending future is
ready, so under deterministic completion times it hands back a pending
task with the least `finish` (the first among ties), and on an empty
range it returns the end iterator, modelled as `none`.
-/

/-- One launched benchmark task, as seen by the gathering loop: the
time its future becomes ready and the elapsed-seconds value it
returns. -/
structure EhTask where
  finish : ℚ
  value : ℚ
deriving DecidableEq, Repr

/-- `boost::wait_for_any` over the pending tasks: the pending task
whose future becomes ready first (least `finish`, first among ties);
`none` when the range is empty. -/
def wait_for_any (tasks : List EhTask) : Option EhTask :=
  tasks.argmin EhTask.finish

/-- The gathering loop of `benchmark_solve_equihash_threaded`
(lines 137–142): wait for any pending task, push its value, erase it,
repeat until none is pending.  Each iteration removes one task, so
fuel `tasks.length` runs the loop to completion. -/
def gatherAux : Nat → List EhTask → List ℚ
  | 0, _ => []
  | fuel + 1, tasks =>
    match wait_for_any tasks with
    | none => []
    | some t => t.value :: gatherAux fuel (tasks.erase t)

/-- The result-gathering loop, run to completion. -/
def gatherLoop (tasks : List EhTask) : List ℚ :=
  gatherAux tasks.length tasks

/-- `benchmark_solve_equihash_threaded` (lines 130–144): launch
`nThreads` tasks (the C++ loop `for (int i = 0; i < nThreads; i++)`
runs `max nThreads 0` times), then gather in completion order.  The
boost scheduler is the oracle `spawn`, giving the task launched at
loop index `i`. -/
def benchmark_solve_equihash_threaded (nThreads : Int) (spawn : Nat → EhTask) : List ℚ :=
  let tasks := (List.range nThreads.toNat).map spawn
  gatherLoop tasks

/-- Ghost companion of `gatherAux` recording the collected tasks
themselves (with their completion times) instead of just the pushed
values, so completion order can be stated. -/
def gatherOrderAux : Nat → List EhTask → List EhTask
  | 0, _ => []
  | fuel + 1, tasks =>
    match wait_for_any tasks with
    | none => []
    | some t => t :: gatherOrderAux fuel (tasks.erase t)

/-- The tasks in the order the loop collects them. -/
def gatherOrder (tasks : List EhTask) : List EhTask :=
  gatherOrderAux tasks.length tasks

theorem gatherAux_eq_map (fuel : Nat) (tasks : List EhTask) :
    gatherAux fuel tasks = (gatherOrderAux fuel tasks).map EhTask.value := by
  induction fuel generalizing tasks with
  | zero => rfl
  | succ fuel ih =>
    unfold gatherAux gatherOrderAux
    cases h : wait_for_any tasks with
    | none => rfl
    | some t => simp [ih]

theorem gatherOrderAux_perm (fuel : Nat) (tasks : List EhTask)
    (hfuel : tasks.length ≤ fuel) : (gatherOrderAux fuel tasks).Perm tasks := by
  induction fuel generalizing tasks with
  | zero =>
    have : tasks = [] := List.length_eq_zero.mp (Nat.le_zero.mp hfuel)
    simp [this, gatherOrderAux]
  | succ fuel ih =>
    unfold gatherOrderAux
    cases h : wait_for_any tasks with
    | none =>
      have : tasks = [] := List.argmin_eq_none.mp h
      simp [this]
    | some t =>
      have ht : t ∈ tasks := List.argmin_mem h
      have hlen : (tasks.erase t).length ≤ fuel := by
        rw [List.length_erase_of_mem ht]; omega
      exact ((ih _ hlen).cons t).trans (List.perm_cons_erase ht).symm

theorem gatherOrderAux_sorted (fuel : Nat) (tasks : List EhTask)
    (hfuel : tasks.length ≤ fuel) :
    (gatherOrderAux fuel tasks).Pairwise (fun a b => a.finish ≤ b.finish) := by
  induction fuel generalizing tasks with
  | zero => simp [gatherOrderAux]
  | succ fuel ih =>
    unfold gatherOrderAux
    cases h : wait_for_any tasks with
    | none => simp
    | some t =>
      have ht : t ∈ tasks := List.argmin_mem h
      have hlen : (tasks.erase t).length ≤ fuel := by
        rw [List.length_erase_of_mem ht]; omega
      refine List.Pairwise.cons ?_ (ih _ hlen)
      intro b hb
      have hb2 : b ∈ tasks.erase t :=
        ((gatherOrderAux_perm fuel _ hlen).mem_iff).mp hb
      exact List.le_of_mem_argmin (List.mem_of_mem_erase hb2) h

theorem gatherOrderAux_length (fuel : Nat) (tasks : List EhTask)
    (hfuel : tasks.length ≤ fuel) :
    (gatherOrderAux fuel tasks).length = tasks.length :=
  (gatherOrderAux_perm fuel tasks hfuel).length_eq

/-- C1: for every non-negative concurrency degree `n`,
`benchmark_solve_equihash_threaded n` returns exactly `n` elapsed-seconds
values, and for `n = 0` it returns the empty sequence. -/
theorem solve_equihash_threaded_length (n : Int) (spawn : Nat → EhTask)
    (hn : 0 ≤ n) :
    ((benchmark_solve_equihash_threaded n spawn).length : Int) = n ∧
      benchmark_solve_equihash_threaded 0 spawn = [] := by
  constructor
  · unfold benchmark_solve_equihash_threaded gatherLoop
    rw [gatherAux_eq_map, List.length_map]
    rw [gatherOrderAux_length ((List.range n.toNat).map spawn).length
          ((List.range n.toNat).map spawn) (le_refl _)]
    simp [Int.toNat_of_nonneg hn]
  · rfl

/-- Witness for C1 at `n = 4`. -/
theorem solve_equihash_threaded_length_witness :
    (0 : Int) ≤ 4 ∧
      ((benchmark_solve_equihash_threaded 4 (fun i => EhTask.mk i i)).length : Int) = 4 ∧
      benchmark_solve_equihash_threaded 0 (fun i => EhTask.mk i i) = [] :=
  ⟨by decide,
    solve_equihash_threaded_length 4 (fun i => EhTask.mk i i) (by decide)⟩

/-- C2: for `n > 1`, the runner's output lists task results in
completion order: the collected sequence is a permutation of the
launched tasks, is sorted by completion time (fastest-finishing
first), and the returned values are exactly the values of that
completion-ordered sequence — the loop repeatedly waits for any
not-yet-collected task, appends it, and erases it until none remain. -/
theorem solve_equihash_threaded_completion_order (n : Int) (spawn : Nat → EhTask)
    (hn : 1 < n) :
    (gatherOrder ((List.range n.toNat).map spawn)).Perm
        ((List.range n.toNat).map spawn) ∧
      (gatherOrder ((List.range n.toNat).map spawn)).Pairwise
        (fun a b => a.finish ≤ b.finish) ∧
      benchmark_solve_equihash_threaded n spawn =
        (gatherOrder ((List.range n.toNat).map spawn)).map EhTask.value :=
  ⟨gatherOrderAux_perm _ _ (le_refl _),
   gatherOrderAux_sorted _ _ (le_refl _),
   gatherAux_eq_map _ _⟩

/-- Witness for C2 at `n = 3` with tasks finishing in reverse launch
order. -/
theorem solve_equihash_threaded_completion_order_witness :
    (1 : Int) < 3 ∧
      ((gatherOrder ((List.range (3 : Int).toNat).map
            (fun i => EhTask.mk (10 - i) i))).Perm
          ((List.range (3 : Int).toNat).map (fun i => EhTask.mk (10 - i) i)) ∧
        (gatherOrder ((List.range (3 : Int).toNat).map
            (fun i => EhTask.mk (10 - i) i))).Pairwise
          (fun a b => a.finish ≤ b.finish) ∧
        benchmark_solve_equihash_threaded 3 (fun i => EhTask.mk (10 - i) i) =
          (gatherOrder ((List.range (3 : Int).toNat).map
              (fun i => EhTask.mk (10 - i) i))).map EhTask.value) :=
  ⟨by decide,
   solve_equihash_threaded_completion_order 3 (fun i => EhTask.mk (10 - i) i)
     (by decide)⟩

/-!
### `benchmark_solve_equihash` (lines 103–128)

Setup (header serialization, `(n, k)` lookup, hash-state
initialisation, nonce generation) feeds an external solver.  Line 124
declares `std::set<std::vector<unsigned int>> solns;` and lines
125–126 run the solver with the capture-free validity callback
`[](std::vector<unsigned char> soln) { return false; }`.  The solver
is external; it is modelled by the list of candidate solutions it
presents to the callback, in order.  The callback body is translated
below; note that it does not reference `solns`, and no other statement
of the function mentions `solns` after its declaration.
-/

/-- The accept/reject predicate `benchmark_solve_equihash` passes to
`EhOptimisedSolveUncancellable` (line 126): a capture-free lambda that
returns `false` for every candidate solution. -/
def equihash_validBlock (soln : List Nat) : Bool :=
  false

/-- Effect of one solver callback invocation on the benchmark's local
state `solns` (line 124): the lambda runs on the candidate and its
boolean is the solver's business; the lambda captures nothing, so
`solns` is left as it was. -/
def equihash_solveStep (solns : Finset (List Nat)) (cand : List Nat) :
    Finset (List Nat) :=
  let _ := equihash_validBlock cand
  solns

/-- `benchmark_solve_equihash` (lines 122–127, the part after setup):
start the timer, declare the empty `solns` set, run the solver over
its candidate stream, and return the elapsed time.  Returns the
elapsed seconds together with the final contents of `solns`. -/
def benchmark_solve_equihash (candidates : List (List Nat))
    (tv_start tv_end : timeval) : ℚ × Finset (List Nat) :=
  let solns : Finset (List Nat) := ∅
  let solns := candidates.foldl equihash_solveStep solns
  ((timer_stop tv_start tv_end).1, solns)

theorem equihash_foldl_empty (candidates : List (List Nat))
    (s : Finset (List Nat)) :
    candidates.foldl equihash_solveStep s = s := by
  induction candidates generalizing s with
  | nil => rfl
  | cons c cs ih => exact ih s

/-- Counterexample to C5 as stated: with the solver presenting the
candidate solution `[1, 2]`, the benchmark's `solns` set does not
receive it — nothing is ever inserted, so the candidate is not
collected. -/
theorem solve_equihash_no_collection_counterexample :
    [1, 2] ∈ [[1, 2]] ∧
      [1, 2] ∉ (benchmark_solve_equihash [[1, 2]]
          (timeval.mk 0 0) (timeval.mk 0 0)).2 := by
  constructor
  · decide
  · show [1, 2] ∉ ([[1, 2]].foldl equihash_solveStep (∅ : Finset (List Nat)))
    rw [equihash_foldl_empty]
    decide

/-- C5 (amended): `benchmark_solve_equihash` declares a deduplicating
set for candidate solutions but never inserts into it — after the
solver runs, the set is empty no matter which candidates were
presented — and the accept/reject predicate it supplies to the solver
returns `false` for every candidate (forcing exhaustive search). -/
theorem solve_equihash_rejects_all_collects_none
    (candidates : List (List Nat)) (tv_start tv_end : timeval) :
    (benchmark_solve_equihash candidates tv_start tv_end).2 = ∅ ∧
      ∀ soln : List Nat, equihash_validBlock soln = false := by
  constructor
  · show candidates.foldl equihash_solveStep ∅ = ∅
    exact equihash_foldl_empty candidates ∅
  · intro soln
    rfl

/-!
### JoinSplit benchmarks (lines 72–101)

The JoinSplit proof system (`JSDescription`, `pzcashParams`,
`JSDescription::Verify`) lives outside this repository; per the spec
(§6) it offers proof construction and verification.  It is modelled
as an oracle: `jsdescription pk anchor` is the proof the
`JSDescription` constructor builds at the call site of line 81 (two
empty `JSInput`s, two empty `JSOutput`s, zero `vpub_old`/`vpub_new`),
and `jsVerify` is `JSDescription::Verify`.
-/

/-- Modelled from the spec: the external JoinSplit proof-system
collaborator (construction and verification, spec §6), missing from
`src/`.  `emptyTreeRoot` is `ZCIncrementalMerkleTree().root()`. -/
structure JoinSplitAPI (P : Type) where
  emptyTreeRoot : Nat
  jsdescription : Nat → Nat → P
  jsVerify : P → Nat → Bool

/-- `benchmark_create_joinsplit` (lines 72–92): construct a proof with
two empty inputs, two empty outputs, zero fee/value, against the
empty-tree anchor, inside the timed region; then
`assert(jsdesc.Verify(*pzcashParams, pubKeyHash))`.  A failing fatal
assertion is modelled as `none`; otherwise the elapsed seconds are
returned. -/
def benchmark_create_joinsplit {P : Type} (api : JoinSplitAPI P)
    (tv_start tv_end : timeval) : Option ℚ :=
  let pubKeyHash : Nat := 0
  let anchor : Nat := api.emptyTreeRoot
  let jsdesc : P := api.jsdescription pubKeyHash anchor
  let ret : ℚ := (timer_stop tv_start tv_end).1
  if api.jsVerify jsdesc pubKeyHash then some ret else none

/-- `benchmark_verify_joinsplit` (lines 94–101): time
`joinsplit.Verify(*pzcashParams, pubKeyHash)` and return the elapsed
seconds.  The boolean `Verify` returns is discarded (line 99 is an
expression statement). -/
def benchmark_verify_joinsplit {P : Type} (api : JoinSplitAPI P)
    (joinsplit : P) (tv_start tv_end : timeval) : ℚ :=
  let pubKeyHash : Nat := 0
  let _ := api.jsVerify joinsplit pubKeyHash
  (timer_stop tv_start tv_end).1

/-- `benchmark_verify_equihash` (lines 146–155): time
`CheckEquihashSolution(&genesis_header, params)` and return the
elapsed seconds.  The boolean result is discarded.  The header and
chain-parameter types and the checker are external, so they are type
and function parameters. -/
def benchmark_verify_equihash {H PRM : Type}
    (checkEquihashSolution : H → PRM → Bool)
    (genesis_header : H) (params : PRM) (tv_start tv_end : timeval) : ℚ :=
  let _ := checkEquihashSolution genesis_header params
  (timer_stop tv_start tv_end).1

/-- C6: whenever the proof system verifies every freshly constructed
proof (the spec's contract for the external collaborator), the fatal
assertion in `benchmark_create_joinsplit` passes, so the function
returns the elapsed duration rather than aborting. -/
theorem create_joinsplit_verifies {P : Type} (api : JoinSplitAPI P)
    (tv_start tv_end : timeval)
    (h : ∀ pk anchor : Nat, api.jsVerify (api.jsdescription pk anchor) pk = true) :
    benchmark_create_joinsplit api tv_start tv_end =
      some ((timer_stop tv_start tv_end).1) := by
  simp [benchmark_create_joinsplit, h 0 api.emptyTreeRoot]

/-- Witness for C6 with a trivial proof system that accepts every
proof. -/
theorem create_joinsplit_verifies_witness :
    benchmark_create_joinsplit
        (JoinSplitAPI.mk (P := Unit) 0 (fun _ _ => ()) (fun _ _ => true))
        (timeval.mk 0 0) (timeval.mk 1 0) =
      some ((timer_stop (timeval.mk 0 0) (timeval.mk 1 0)).1) :=
  create_joinsplit_verifies
    (JoinSplitAPI.mk (P := Unit) 0 (fun _ _ => ()) (fun _ _ => true))
    (timeval.mk 0 0) (timeval.mk 1 0) (fun _ _ => rfl)

/-- C9: `benchmark_verify_joinsplit` and `benchmark_verify_equihash`
discard the verification result: each returns the elapsed duration
unconditionally, and its output is unchanged under replacing the
verifier by any other verifier (so a failed verification cannot be
detected, asserted on, or reported). -/
theorem verify_benchmarks_discard_result {P H PRM : Type}
    (api api2 : JoinSplitAPI P) (joinsplit : P)
    (chk chk2 : H → PRM → Bool) (genesis_header : H) (params : PRM)
    (tv_start tv_end : timeval) :
    benchmark_verify_joinsplit api joinsplit tv_start tv_end =
        (timer_stop tv_start tv_end).1 ∧
      benchmark_verify_joinsplit api joinsplit tv_start tv_end =
        benchmark_verify_joinsplit api2 joinsplit tv_start tv_end ∧
      benchmark_verify_equihash chk genesis_header params tv_start tv_end =
        (timer_stop tv_start tv_end).1 ∧
      benchmark_verify_equihash chk genesis_header params tv_start tv_end =
        benchmark_verify_equihash chk2 genesis_header params tv_start tv_end :=
  ⟨rfl, rfl, rfl, rfl⟩

/-!
### `benchmark_large_tx` (lines 157–217)

The transaction types keep the source's shape: scripts and transaction
ids are abstract byte/word data.  The key/script subsystem
(`SignSignature`, `GetTxid`, stream serialization, `VerifyScript`) and
the `MAX_BLOCK_SIZE` consensus constant live outside this repository
and form the `TxEnv` oracle.
-/

/-- `COutPoint`: reference to an output of a previous transaction. -/
structure COutPoint where
  hash : Nat
  n : Nat
deriving DecidableEq, Repr

/-- `CTxIn`: a transaction input, with the outpoint it spends and its
unlocking script.  `spending_tx.vin.emplace_back(input_hash, 0)`
(line 183) leaves `scriptSig` empty. -/
structure CTxIn where
  prevout : COutPoint
  scriptSig : List Nat
deriving DecidableEq, Repr

instance : Inhabited CTxIn :=
  ⟨⟨⟨0, 0⟩, []⟩⟩

/-- `CTxOut`: a transaction output with an amount and a locking
script. -/
structure CTxOut where
  nValue : Int
  scriptPubKey : List Nat
deriving DecidableEq, Repr

/-- `CMutableTransaction`: just the input and output vectors (the
other fields play no role in this benchmark). -/
structure CMutableTransaction where
  vin : List CTxIn
  vout : List CTxOut
deriving DecidableEq, Repr

/-- Modelled from the spec: the key/script/serialization subsystem and
the `MAX_BLOCK_SIZE` consensus constant (spec §4.3, §6), which are code
of this repository outside `src/`.  The oracle fields correspond to:
* `prevPubKey` — `GetScriptForDestination(pub.GetID())` for the fresh
  key (lines 163–174);
* `getTxid` — `CTransaction::GetTxid` (line 180);
* `signSignature tx i` — the outcome of
  `SignSignature(tempKeystore, prevPubKey, tx, i, SIGHASH_ALL)`
  (line 188): its boolean return value, and the `scriptSig` it stores
  into `tx.vin[i]`;
* `serializeSize tx` — `ss.size()` after `ss << tx` (lines 193–195);
* `verifyScript sig pk tx i` — `VerifyScript(sig, pk,
  STANDARD_SCRIPT_VERIFY_FLAGS, TransactionSignatureChecker(&tx, i),
  &serror)` (lines 210–214). -/
structure TxEnv where
  prevPubKey : List Nat
  getTxid : CMutableTransaction → Nat
  signSignature : CMutableTransaction → Nat → Bool × List Nat
  serializeSize : CMutableTransaction → Nat
  MAX_BLOCK_SIZE : Nat
  verifyScript : List Nat → List Nat → CMutableTransaction → Nat → Bool

/-- `NUM_INPUTS` (line 160): number of inputs in the spending
transaction. -/
def NUM_INPUTS : Nat := 11100

attribute [irreducible] NUM_INPUTS

/-- `m_orig_tx` (lines 171–175): the funding transaction, with a
single output of 1000000 paying to `prevPubKey` and no inputs. -/
def m_orig_tx (env : TxEnv) : CMutableTransaction :=
  { vin := [], vout := [{ nValue := 1000000, scriptPubKey := env.prevPubKey }] }

/-- The spending transaction after the input-adding loop
(lines 179–184): `NUM_INPUTS` inputs, each referencing output 0 of the
funding transaction, none signed yet. -/
def spending_tx_unsigned (env : TxEnv) : CMutableTransaction :=
  let input_hash := env.getTxid (m_orig_tx env)
  { vin := (List.range NUM_INPUTS).map
      (fun _ => { prevout := { hash := input_hash, n := 0 }, scriptSig := [] }),
    vout := [] }

/-- One iteration of the signing loop (lines 187–189):
`SignSignature(tempKeystore, prevPubKey, spending_tx, i, SIGHASH_ALL)`
stores a fresh `scriptSig` into input `i`; its boolean return value
(`r.1`) is discarded by the source. -/
def signInput (env : TxEnv) (tx : CMutableTransaction) (i : Nat) :
    CMutableTransaction :=
  let r := env.signSignature tx i
  { tx with
    vin := tx.vin.set i { tx.vin.getD i default with scriptSig := r.2 } }

/-- The spending transaction after the first `k` iterations of the
signing loop. -/
def signUpTo (env : TxEnv) (k : Nat) : CMutableTransaction :=
  (List.range k).foldl (signInput env) (spending_tx_unsigned env)

/-- `final_spending_tx` (line 203): the fully signed spending
transaction. -/
def final_spending_tx (env : TxEnv) : CMutableTransaction :=
  signUpTo env NUM_INPUTS

/-- The serialized-size window check (lines 192–200):
`error = MAX_BLOCK_SIZE / 20` and the two fatal assertions
`ss.size() < MAX_BLOCK_SIZE + error` and
`ss.size() > MAX_BLOCK_SIZE - error` (unsigned arithmetic; since
`error ≤ MAX_BLOCK_SIZE`, truncated subtraction agrees with it). -/
def large_tx_size_ok (env : TxEnv) : Bool :=
  let sz := env.serializeSize (final_spending_tx env)
  let error := env.MAX_BLOCK_SIZE / 20
  decide (sz < env.MAX_BLOCK_SIZE + error) &&
    decide (env.MAX_BLOCK_SIZE - error < sz)

/-- Whether every iteration of the timed verification loop
(lines 208–215) passes its fatal assertion:
`VerifyScript(final_spending_tx.vin[i].scriptSig, prevPubKey, ...)`
for each `i < NUM_INPUTS`. -/
def large_tx_verify_ok (env : TxEnv) : Bool :=
  (List.range NUM_INPUTS).all (fun i =>
    env.verifyScript ((final_spending_tx env).vin.getD i default).scriptSig
      env.prevPubKey (final_spending_tx env) i)

/-- `benchmark_large_tx` (lines 157–217): build and sign the synthetic
transaction, assert the serialized-size window, then verify every
input's unlocking script inside the timed region and return the
elapsed seconds.  A failing fatal assertion is modelled as `none`. -/
def benchmark_large_tx (env : TxEnv) (tv_start tv_end : timeval) :
    Option ℚ :=
  if large_tx_size_ok env then
    if large_tx_verify_ok env then some ((timer_stop tv_start tv_end).1)
    else none
  else none

theorem foldl_signInput_vin_length (env : TxEnv) (l : List Nat)
    (tx : CMutableTransaction) :
    (l.foldl (signInput env) tx).vin.length = tx.vin.length := by
  induction l generalizing tx with
  | nil => rfl
  | cons j js ih =>
    rw [List.foldl_cons, ih]
    simp [signInput]

theorem signUpTo_vin_length (env : TxEnv) (k : Nat) :
    (signUpTo env k).vin.length = NUM_INPUTS := by
  unfold signUpTo
  rw [foldl_signInput_vin_length]
  simp [spending_tx_unsigned]

theorem signInput_prevout (env : TxEnv) (tx : CMutableTransaction)
    (i : Nat) (p : COutPoint) (h : ∀ txin ∈ tx.vin, txin.prevout = p) :
    ∀ txin ∈ (signInput env tx i).vin, txin.prevout = p := by
  intro txin hmem
  simp only [signInput] at hmem
  by_cases hi : i < tx.vin.length
  · rcases List.mem_or_eq_of_mem_set hmem with hmem2 | heq
    · exact h txin hmem2
    · subst heq
      show (tx.vin.getD i default).prevout = p
      rw [List.getD_eq_getElem?_getD, List.getElem?_eq_getElem hi]
      exact h _ (List.getElem_mem hi)
  · rw [List.set_eq_of_length_le (Nat.le_of_not_lt hi)] at hmem
    exact h txin hmem

theorem foldl_signInput_prevout (env : TxEnv) (l : List Nat)
    (tx : CMutableTransaction) (p : COutPoint)
    (h : ∀ txin ∈ tx.vin, txin.prevout = p) :
    ∀ txin ∈ (l.foldl (signInput env) tx).vin, txin.prevout = p := by
  induction l generalizing tx with
  | nil => exact h
  | cons j js ih => exact ih _ (signInput_prevout env tx j p h)

theorem signUpTo_succ (env : TxEnv) (k : Nat) :
    signUpTo env (k + 1) = signInput env (signUpTo env k) k := by
  unfold signUpTo
  rw [List.range_succ, List.foldl_append, List.foldl_cons, List.foldl_nil]

theorem signUpTo_scriptSig (env : TxEnv) (k i : Nat) (hik : i < k)
    (hk : k ≤ NUM_INPUTS) :
    ((signUpTo env k).vin.getD i default).scriptSig =
      (env.signSignature (signUpTo env i) i).2 := by
  induction k with
  | zero => omega
  | succ k ih =>
    rw [signUpTo_succ]
    by_cases hieq : i = k
    · subst hieq
      have hlen : i < (signUpTo env i).vin.length := by
        rw [signUpTo_vin_length]; omega
      simp only [signInput]
      rw [List.getD_eq_getElem?_getD, List.getElem?_set_self (by simpa using hlen)]
      rfl
    · have hik2 : i < k := by omega
      simp only [signInput]
      rw [List.getD_eq_getElem?_getD, List.getElem?_set_ne (by omega : k ≠ i)]
      rw [← List.getD_eq_getElem?_getD]
      exact ih hik2 (by omega)

set_option maxRecDepth 8000

/-- C7: `benchmark_large_tx` builds a funding transaction with exactly
one output and a spending transaction with exactly `NUM_INPUTS = 11100`
inputs, each referencing that funding transaction's output index 0,
each input's unlocking script being the one produced by its own
`SignSignature` call; and the benchmark returns a duration exactly when
the serialized-size window assertion (lines 197–199) and the
verification assertions pass, so any size-window violation aborts the
run. -/
theorem large_tx_construction (env : TxEnv) (tv_start tv_end : timeval) :
    (m_orig_tx env).vout.length = 1 ∧
      (final_spending_tx env).vin.length = NUM_INPUTS ∧
      ((final_spending_tx env).vin.all fun txin =>
          txin.prevout == COutPoint.mk (env.getTxid (m_orig_tx env)) 0) = true ∧
      ((List.range NUM_INPUTS).all fun i =>
          ((final_spending_tx env).vin.getD i default).scriptSig ==
            (env.signSignature (signUpTo env i) i).2) = true ∧
      (benchmark_large_tx env tv_start tv_end).isSome =
        (large_tx_size_ok env && large_tx_verify_ok env) := by
  refine ⟨rfl, signUpTo_vin_length env NUM_INPUTS, ?_, ?_, ?_⟩
  · rw [List.all_eq_true]
    intro txin hmem
    rw [beq_iff_eq]
    refine foldl_signInput_prevout env _ _ _ ?_ txin hmem
    intro txin2 hmem2
    simp only [spending_tx_unsigned, List.mem_map] at hmem2
    obtain ⟨j, hj, rfl⟩ := hmem2
    rfl
  · rw [List.all_eq_true]
    intro i hi
    rw [beq_iff_eq]
    exact signUpTo_scriptSig env NUM_INPUTS i (List.mem_range.mp hi) (le_refl _)
  · cases h1 : large_tx_size_ok env <;>
      cases h2 : large_tx_verify_ok env <;>
        simp [benchmark_large_tx, h1, h2]

/-!
### Timed region of `benchmark_large_tx` (C8)

`timer_start` is called at line 207, after key generation,
transaction construction, signing and the serialized-size assertions,
and `timer_stop` at line 216, directly after the verification loop of
lines 208–215.  The order of operations is recorded as an event
trace.
-/

/-- The operations `benchmark_large_tx` performs, in source order. -/
inductive TxBenchEvent where
  | makeKey : TxBenchEvent
  | buildOrigTx : TxBenchEvent
  | addInput : Nat → TxBenchEvent
  | signEvent : Nat → TxBenchEvent
  | serializeCheck : TxBenchEvent
  | timerStartEv : TxBenchEvent
  | verifyInput : Nat → TxBenchEvent
  | timerStopEv : TxBenchEvent
deriving DecidableEq, Repr

/-- The event trace of `benchmark_large_tx` in source order:
key generation (lines 162–167), funding-transaction construction
(lines 171–177), the input-adding loop (lines 182–184), the signing
loop (lines 187–189), serialization with its size assertions
(lines 192–200), `timer_start` (line 207), the verification loop
(lines 208–215), `timer_stop` (line 216). -/
def benchmark_large_tx_trace : List TxBenchEvent :=
  [TxBenchEvent.makeKey, TxBenchEvent.buildOrigTx]
    ++ (List.range NUM_INPUTS).map TxBenchEvent.addInput
    ++ (List.range NUM_INPUTS).map TxBenchEvent.signEvent
    ++ [TxBenchEvent.serializeCheck]
    ++ [TxBenchEvent.timerStartEv]
    ++ (List.range NUM_INPUTS).map TxBenchEvent.verifyInput
    ++ [TxBenchEvent.timerStopEv]

theorem dropWhile_append_all {α : Type} (p : α → Bool) (l r : List α)
    (h : ∀ x ∈ l, p x = true) :
    (l ++ r).dropWhile p = r.dropWhile p := by
  induction l with
  | nil => rfl
  | cons a as ih =>
    rw [List.cons_append, List.dropWhile_cons, h a (List.mem_cons_self a as)]
    simp only [if_true]
    exact ih (fun x hx => h x (List.mem_cons_of_mem a hx))

theorem takeWhile_append_all {α : Type} (p : α → Bool) (l r : List α)
    (h : ∀ x ∈ l, p x = true) :
    (l ++ r).takeWhile p = l ++ r.takeWhile p := by
  induction l with
  | nil => rfl
  | cons a as ih =>
    rw [List.cons_append, List.takeWhile_cons, h a (List.mem_cons_self a as)]
    simp only [if_true, List.cons_append]
    rw [ih (fun x hx => h x (List.mem_cons_of_mem a hx))]

/-- The part of the trace strictly between `timer_start` and
`timer_stop`: drop everything before the timer start, then take until
the timer stop. -/
def timedRegion (trace : List TxBenchEvent) : List TxBenchEvent :=
  ((trace.dropWhile (fun ev => ev != TxBenchEvent.timerStartEv)).tail).takeWhile
    (fun ev => ev != TxBenchEvent.timerStopEv)

theorem large_tx_timed_region_eq :
    timedRegion benchmark_large_tx_trace =
      (List.range NUM_INPUTS).map TxBenchEvent.verifyInput := by
  unfold timedRegion benchmark_large_tx_trace
  rw [List.append_assoc, List.append_assoc, List.append_assoc,
    List.append_assoc, List.append_assoc]
  rw [dropWhile_append_all]
  · rw [dropWhile_append_all]
    · rw [dropWhile_append_all]
      · rw [dropWhile_append_all]
        · rw [List.singleton_append, List.dropWhile_cons]
          simp only [bne_self_eq_false, Bool.false_eq_true, if_false, List.tail_cons]
          rw [takeWhile_append_all]
          · rw [List.takeWhile_cons]
            simp only [bne_self_eq_false, Bool.false_eq_true, if_false,
              List.append_nil]
          · intro x hx
            obtain ⟨i, hi, rfl⟩ := List.mem_map.mp hx
            simp
        · intro x hx
          simp only [List.mem_singleton] at hx
          subst hx
          simp
      · intro x hx
        obtain ⟨i, hi, rfl⟩ := List.mem_map.mp hx
        simp
    · intro x hx
      obtain ⟨i, hi, rfl⟩ := List.mem_map.mp hx
      simp
  · intro x hx
    simp only [List.mem_cons, List.not_mem_nil, or_false] at hx
    rcases hx with rfl | rfl <;> simp

/-- C8: in `benchmark_large_tx` the timed region (between `timer_start`
at line 207 and `timer_stop` at line 216) consists solely of the
per-input unlocking-script verification loop over the `NUM_INPUTS`
inputs; when the script verifier accepts the constructed transaction's
inputs (the external script subsystem's contract for a correctly
signed transaction, spec §4.3), every per-input fatal assertion
passes, so the benchmark returns the elapsed duration whenever the
size-window assertion also passes; and any verification failure makes
the run abort. -/
theorem large_tx_timed_verification (env : TxEnv) (tv_start tv_end : timeval)
    (h : ∀ sig pk tx i, env.verifyScript sig pk tx i = true) :
    timedRegion benchmark_large_tx_trace =
        (List.range NUM_INPUTS).map TxBenchEvent.verifyInput ∧
      large_tx_verify_ok env = true ∧
      benchmark_large_tx env tv_start tv_end =
        (if large_tx_size_ok env then some ((timer_stop tv_start tv_end).1)
         else none) ∧
      ∀ env2 : TxEnv, large_tx_verify_ok env2 = false →
        benchmark_large_tx env2 tv_start tv_end = none := by
  have hok : large_tx_verify_ok env = true := by
    rw [large_tx_verify_ok, List.all_eq_true]
    intro i hi
    exact h _ _ _ _
  refine ⟨large_tx_timed_region_eq, hok, ?_, ?_⟩
  · cases hs : large_tx_size_ok env <;> simp [benchmark_large_tx, hs, hok]
  · intro env2 h2
    cases hs : large_tx_size_ok env2 <;> simp [benchmark_large_tx, hs, h2]

/-- Witness for C8 with a script verifier that accepts everything. -/
theorem large_tx_timed_verification_witness :
    timedRegion benchmark_large_tx_trace =
        (List.range NUM_INPUTS).map TxBenchEvent.verifyInput ∧
      large_tx_verify_ok
          (TxEnv.mk [] (fun _ => 0) (fun _ _ => (true, []))
            (fun _ => 2000000) 2000000 (fun _ _ _ _ => true)) = true ∧
      benchmark_large_tx
          (TxEnv.mk [] (fun _ => 0) (fun _ _ => (true, []))
            (fun _ => 2000000) 2000000 (fun _ _ _ _ => true))
          (timeval.mk 0 0) (timeval.mk 1 0) =
        (if large_tx_size_ok
              (TxEnv.mk [] (fun _ => 0) (fun _ _ => (true, []))
                (fun _ => 2000000) 2000000 (fun _ _ _ _ => true))
         then some ((timer_stop (timeval.mk 0 0) (timeval.mk 1 0)).1)
         else none) ∧
      ∀ env2 : TxEnv, large_tx_verify_ok env2 = false →
        benchmark_large_tx env2 (timeval.mk 0 0) (timeval.mk 1 0) = none :=
  large_tx_timed_verification
    (TxEnv.mk [] (fun _ => 0) (fun _ _ => (true, []))
      (fun _ => 2000000) 2000000 (fun _ _ _ _ => true))
    (timeval.mk 0 0) (timeval.mk 1 0) (fun _ _ _ _ => rfl)

/-- C10: the boolean returned by `SignSignature` (line 188) is
discarded for every one of the `NUM_INPUTS` inputs: replacing the
signing oracle by one returning different success flags but storing
the same scriptSigs leaves both the fully signed transaction and the
benchmark's entire result unchanged — so a signing failure never
aborts the setup phase, and could only surface in the timed
verification loop's fatal assertions. -/
theorem large_tx_sign_result_ignored (env env2 : TxEnv)
    (tv_start tv_end : timeval)
    (hsig : ∀ tx i, (env.signSignature tx i).2 = (env2.signSignature tx i).2)
    (hpk : env.prevPubKey = env2.prevPubKey)
    (htxid : env.getTxid = env2.getTxid)
    (hser : env.serializeSize = env2.serializeSize)
    (hmbs : env.MAX_BLOCK_SIZE = env2.MAX_BLOCK_SIZE)
    (hver : env.verifyScript = env2.verifyScript) :
    final_spending_tx env = final_spending_tx env2 ∧
      benchmark_large_tx env tv_start tv_end =
        benchmark_large_tx env2 tv_start tv_end := by
  have hmorig : m_orig_tx env = m_orig_tx env2 := by
    simp only [m_orig_tx, hpk]
  have hunsigned : spending_tx_unsigned env = spending_tx_unsigned env2 := by
    simp only [spending_tx_unsigned, htxid, hmorig]
  have hsignF : signInput env = signInput env2 := by
    funext tx i
    simp only [signInput, hsig tx i]
  have hfinal : final_spending_tx env = final_spending_tx env2 := by
    simp only [final_spending_tx, signUpTo, hunsigned, hsignF]
  refine ⟨hfinal, ?_⟩
  simp only [benchmark_large_tx, large_tx_size_ok, large_tx_verify_ok,
    hfinal, hser, hmbs, hver, hpk]

/-- Witness for C10: two signing oracles that store the same scriptSig
but report opposite success flags. -/
theorem large_tx_sign_result_ignored_witness :
    final_spending_tx
        (TxEnv.mk [] (fun _ => 0) (fun _ _ => (true, [7]))
          (fun _ => 0) 0 (fun _ _ _ _ => true)) =
      final_spending_tx
        (TxEnv.mk [] (fun _ => 0) (fun _ _ => (false, [7]))
          (fun _ => 0) 0 (fun _ _ _ _ => true)) ∧
      benchmark_large_tx
          (TxEnv.mk [] (fun _ => 0) (fun _ _ => (true, [7]))
            (fun _ => 0) 0 (fun _ _ _ _ => true))
          (timeval.mk 0 0) (timeval.mk 1 0) =
        benchmark_large_tx
          (TxEnv.mk [] (fun _ => 0) (fun _ _ => (false, [7]))
            (fun _ => 0) 0 (fun _ _ _ _ => true))
          (timeval.mk 0 0) (timeval.mk 1 0) :=
  large_tx_sign_result_ignored
    (TxEnv.mk [] (fun _ => 0) (fun _ _ => (true, [7]))
      (fun _ => 0) 0 (fun _ _ _ _ => true))
    (TxEnv.mk [] (fun _ => 0) (fun _ _ => (false, [7]))
      (fun _ => 0) 0 (fun _ _ _ _ => true))
    (timeval.mk 0 0) (timeval.mk 1 0)
    (fun _ _ => rfl) rfl rfl rfl rfl rfl
